import Mathlib

/-!
# Verification of the openrouter-free-client credential-pool core

This file gives a shallow embedding of the repository's data model and
operations and proves the specified properties about them.

The model-metadata table (`ModelInfo`, `MODELS`) is translated directly from
`openrouter_free/models.py`.  The credential-pool rotation core
(`CredentialRecord`, `CredentialPool`, the request executor) is not present in
the source tree — only its tests and callers are — so those definitions are
modelled from the specification, as marked in their doc comments.
-/

/-- Modelled from the spec: `CredentialRecord` (the `KeyState` of
`openrouter_free/client.py`, which is missing from the tree): one credential's
mutable health state, a `secret` string and an `exhausted` flag. -/
structure CredentialRecord where
  secret : String
  exhausted : Bool
deriving Repr, DecidableEq

/-- Modelled from the spec: `mask()` on a credential record — first 6 and last
6 characters joined by an ellipsis when the secret length exceeds 12
characters; otherwise the fixed placeholder `***`. -/
def CredentialRecord.mask (r : CredentialRecord) : String :=
  if 12 < r.secret.length then
    r.secret.take 6 ++ "..." ++ r.secret.takeRight 6
  else
    "***"

/-- Modelled from the spec: `CredentialPool` (the pool state of the missing
`openrouter_free/client.py`): the ordered record sequence, the rotation
pointer `current_index`, and the cached `exhausted_count`. -/
structure CredentialPool where
  records : List CredentialRecord
  current_index : Nat
  exhausted_count : Nat
deriving Repr, DecidableEq

/-- Modelled from the spec: pool construction — fails fast on an empty
credential list, otherwise starts every record unexhausted with the rotation
pointer at 0. -/
def mkPool (secrets : List String) : Except String CredentialPool :=
  if secrets.isEmpty then
    Except.error "At least one API key must be provided"
  else
    Except.ok { records := secrets.map (fun s => ⟨s, false⟩)
                current_index := 0
                exhausted_count := 0 }

/-- Modelled from the spec: the scan inside `next_candidate` — starting at
`start`, scan forward (wrapping once) for the index of the first record with
`exhausted == false`. -/
def findEligible (records : List CredentialRecord) (start : Nat) : Option Nat :=
  (List.range records.length).findSome? fun k =>
    match records[(start + k) % records.length]? with
    | some r =>
      if r.exhausted then none else some ((start + k) % records.length)
    | none => none

/-- Modelled from the spec: `next_candidate()` — scan forward from
`current_index` (wrapping once) for the first unexhausted record; advance
`current_index` past the returned record; signal exhaustion (`none`) if no
eligible record exists.  The returned `Nat` identifies the chosen record by
position. -/
def CredentialPool.next_candidate (p : CredentialPool) :
    Option (Nat × CredentialPool) :=
  match findEligible p.records p.current_index with
  | none => none
  | some i => some (i, { p with current_index := (i + 1) % p.records.length })

/-- Modelled from the spec: `mark_exhausted(record)` — set `exhausted = true`
on the record at position `i` if not already set, incrementing
`exhausted_count` exactly once per false-to-true transition. -/
def CredentialPool.mark_exhausted (p : CredentialPool) (i : Nat) :
    CredentialPool :=
  match p.records[i]? with
  | none => p
  | some r =>
    if r.exhausted then p
    else { p with records := p.records.set i { r with exhausted := true }
                  exhausted_count := p.exhausted_count + 1 }

/-- Modelled from the spec: `add(secret)` — append a new unexhausted record. -/
def CredentialPool.add (p : CredentialPool) (s : String) : CredentialPool :=
  { p with records := p.records ++ [⟨s, false⟩] }

/-- Modelled from the spec: the search-and-remove inside `remove(secret)` —
remove the first record whose secret matches, returning it together with the
remaining records. -/
def removeFirst (s : String) :
    List CredentialRecord → Option (CredentialRecord × List CredentialRecord)
  | [] => none
  | r :: t =>
    if r.secret = s then some (r, t)
    else
      match removeFirst s t with
      | none => none
      | some (x, t') => some (x, r :: t')

/-- Modelled from the spec: `remove(secret) -> bool` — remove the first
matching record, report whether a removal occurred, decrement
`exhausted_count` if the removed record was exhausted, and re-validate
`current_index` bounds. -/
def CredentialPool.remove (p : CredentialPool) (s : String) :
    Bool × CredentialPool :=
  match removeFirst s p.records with
  | none => (false, p)
  | some (r, recs) =>
    (true, { records := recs
             exhausted_count :=
               if r.exhausted then p.exhausted_count - 1 else p.exhausted_count
             current_index :=
               if recs.length ≤ p.current_index then 0 else p.current_index })

/-- Modelled from the spec: `reset()` — clear every `exhausted` flag and zero
`exhausted_count`. -/
def CredentialPool.reset (p : CredentialPool) : CredentialPool :=
  { p with records := p.records.map (fun r => { r with exhausted := false })
           exhausted_count := 0 }

/-- Modelled from the spec: `counts() -> (total, available)` with
`available = total - exhausted_count`. -/
def CredentialPool.counts (p : CredentialPool) : Nat × Nat :=
  (p.records.length, p.records.length - p.exhausted_count)

/-- The pool consistency invariant: the cached `exhausted_count` equals the
number of records whose `exhausted` flag is true. -/
def PoolInv (p : CredentialPool) : Prop :=
  p.exhausted_count = p.records.countP (·.exhausted)

instance (p : CredentialPool) : Decidable (PoolInv p) := by
  unfold PoolInv; infer_instance

/-- One pool operation, for stating reachability of pool states. -/
inductive PoolOp where
  | next : PoolOp
  | mark : Nat → PoolOp
  | add : String → PoolOp
  | remove : String → PoolOp
  | reset : PoolOp
deriving Repr, DecidableEq

/-- Apply one pool operation to a pool state. -/
def applyOp (p : CredentialPool) : PoolOp → CredentialPool
  | PoolOp.next =>
    match p.next_candidate with
    | none => p
    | some (_, p') => p'
  | PoolOp.mark i => p.mark_exhausted i
  | PoolOp.add s => p.add s
  | PoolOp.remove s => (p.remove s).2
  | PoolOp.reset => p.reset

/-- Run a sequence of pool operations from an initial pool state. -/
def runOps (p : CredentialPool) (ops : List PoolOp) : CredentialPool :=
  ops.foldl applyOp p

/-- Iterate `next_candidate` `k` times, keeping only the pool state. -/
def iterateNext (p : CredentialPool) : Nat → CredentialPool
  | 0 => p
  | k + 1 =>
    match (iterateNext p k).next_candidate with
    | none => iterateNext p k
    | some (_, p') => p'

/-- The record returned by the `(k+1)`-th call to `next_candidate` (after `k`
previous calls), if any. -/
def nthCandidate (p : CredentialPool) (k : Nat) : Option CredentialRecord :=
  match (iterateNext p k).next_candidate with
  | none => none
  | some (i, p') => p'.records[i]?

/-- Outcome of one transport call, as classified at the transport boundary. -/
inductive TransportOutcome where
  | success : String → TransportOutcome
  | authError : TransportOutcome
  | rateLimit : TransportOutcome
  | transportError : TransportOutcome
  | timeout : TransportOutcome
deriving Repr, DecidableEq

/-- Terminal states of the request executor's state machine. -/
inductive ExecResult where
  | succeeded : String → ExecResult
  | allKeysExhausted : ExecResult
  | invalidCredentialFormat : ExecResult
  | underlyingError : ExecResult
deriving Repr, DecidableEq

/-- Modelled from the spec: the `RequestExecutor` state machine of the missing
`openrouter_free/client.py`.  `transport` maps the running transport-call
count and the credential secret to a classified outcome.  `budget` is the
remaining retry budget (each credential-rotation retry and each
same-credential retry consumes one unit).  `pinned = some i` means the next
attempt retries the same record `i` (transport-level failure path) instead of
selecting a new candidate.  Returns the terminal state, the final pool, and
the number of transport calls made. -/
def executeAux (transport : Nat → String → TransportOutcome) :
    Nat → Option Nat → CredentialPool → Nat →
      ExecResult × CredentialPool × Nat
  | budget, pinned, pool, calls =>
    let sel : Option (Nat × CredentialPool) :=
      match pinned with
      | some i => some (i, pool)
      | none => pool.next_candidate
    match sel with
    | none => (ExecResult.allKeysExhausted, pool, calls)
    | some (i, pool1) =>
      match pool1.records[i]? with
      | none => (ExecResult.underlyingError, pool1, calls)
      | some r =>
        if r.secret = "" then (ExecResult.invalidCredentialFormat, pool1, calls)
        else
          match transport calls r.secret with
          | TransportOutcome.success resp =>
            (ExecResult.succeeded resp, pool1, calls + 1)
          | TransportOutcome.authError =>
            let pool2 := pool1.mark_exhausted i
            match budget with
            | b + 1 => executeAux transport b none pool2 (calls + 1)
            | 0 =>
              if pool2.exhausted_count = pool2.records.length then
                (ExecResult.allKeysExhausted, pool2, calls + 1)
              else (ExecResult.underlyingError, pool2, calls + 1)
          | TransportOutcome.rateLimit =>
            let pool2 := pool1.mark_exhausted i
            match budget with
            | b + 1 => executeAux transport b none pool2 (calls + 1)
            | 0 =>
              if pool2.exhausted_count = pool2.records.length then
                (ExecResult.allKeysExhausted, pool2, calls + 1)
              else (ExecResult.underlyingError, pool2, calls + 1)
          | TransportOutcome.transportError =>
            match budget with
            | b + 1 => executeAux transport b (some i) pool1 (calls + 1)
            | 0 => (ExecResult.underlyingError, pool1, calls + 1)
          | TransportOutcome.timeout =>
            match budget with
            | b + 1 => executeAux transport b (some i) pool1 (calls + 1)
            | 0 => (ExecResult.underlyingError, pool1, calls + 1)

/-- Modelled from the spec: `chat_completion` — run a logical request through
the executor state machine, starting at SelectCredential with a fresh call
count. -/
def chat_completion (transport : Nat → String → TransportOutcome)
    (budget : Nat) (p : CredentialPool) : ExecResult × CredentialPool × Nat :=
  executeAux transport budget none p 0

/-- Translated from `openrouter_free/models.py`: information about an AI
model. -/
structure ModelInfo where
  name : String
  context_length : Nat
  max_output_tokens : Option Nat := none
deriving Repr, DecidableEq

/-- Translated from `openrouter_free/models.py`: the OpenRouter-compatible
model name — the name itself when it contains a `/`, otherwise prefixed with
`openai/`. -/
def ModelInfo.openrouter_name (m : ModelInfo) : String :=
  if m.name.data.contains '/' then m.name else "openai/" ++ m.name

/-- Translated from `openrouter_free/models.py`: the predefined common
models table. -/
def MODELS : List (String × ModelInfo) :=
  [("gpt-4o-mini",
    { name := "openai/gpt-4o-mini", context_length := 128000
      max_output_tokens := some 16384 }),
   ("gpt-4o-mini-2024-07-18",
    { name := "openai/gpt-4o-mini-2024-07-18", context_length := 128000
      max_output_tokens := some 16384 }),
   ("gpt-3.5-turbo",
    { name := "openai/gpt-3.5-turbo", context_length := 16385
      max_output_tokens := some 4096 }),
   ("claude-3-haiku",
    { name := "anthropic/claude-3-haiku", context_length := 200000
      max_output_tokens := some 4096 }),
   ("llama-3.2-3b-instruct",
    { name := "meta-llama/llama-3.2-3b-instruct", context_length := 131072
      max_output_tokens := some 131072 }),
   ("phi-3.5-mini-128k-instruct",
    { name := "microsoft/phi-3.5-mini-128k-instruct", context_length := 128000
      max_output_tokens := some 4096 }),
   ("gemini-2.0-flash-exp",
    { name := "google/gemini-2.0-flash-exp:free", context_length := 1048576
      max_output_tokens := some 8192 })]

/-! ## Helper lemmas -/

lemma countP_exhausted_set_true (l : List CredentialRecord) (i : Nat)
    (r : CredentialRecord) (h : l[i]? = some r) (hr : r.exhausted = false) :
    (l.set i { r with exhausted := true }).countP (·.exhausted) =
      l.countP (·.exhausted) + 1 := by
  induction l generalizing i with
  | nil => simp at h
  | cons a t ih =>
    cases i with
    | zero =>
      simp only [List.getElem?_cons_zero, Option.some.injEq] at h
      subst h
      simp [List.set, List.countP_cons, hr]
    | succ n =>
      simp only [List.getElem?_cons_succ] at h
      simp only [List.set, List.countP_cons, ih n h]
      omega

lemma removeFirst_countP (s : String) (l : List CredentialRecord)
    (r : CredentialRecord) (t : List CredentialRecord)
    (h : removeFirst s l = some (r, t)) :
    l.countP (·.exhausted) =
      t.countP (·.exhausted) + (if r.exhausted then 1 else 0) := by
  induction l generalizing t with
  | nil => simp [removeFirst] at h
  | cons a u ih =>
    by_cases ha : a.secret = s
    · simp only [removeFirst, if_pos ha, Option.some.injEq, Prod.mk.injEq] at h
      obtain ⟨rfl, rfl⟩ := h
      simp [List.countP_cons]
    · simp only [removeFirst, if_neg ha] at h
      cases hu : removeFirst s u with
      | none => rw [hu] at h; simp at h
      | some pr =>
        obtain ⟨x, u'⟩ := pr
        rw [hu] at h
        simp only [Option.some.injEq, Prod.mk.injEq] at h
        obtain ⟨rfl, rfl⟩ := h
        simp only [List.countP_cons, ih u' hu]
        omega

lemma removeFirst_eq_none (s : String) (l : List CredentialRecord)
    (h : ∀ r ∈ l, r.secret ≠ s) : removeFirst s l = none := by
  induction l with
  | nil => rfl
  | cons a t ih =>
    simp only [removeFirst, if_neg (h a (List.mem_cons_self a t))]
    rw [ih (fun r hr => h r (List.mem_cons_of_mem a hr))]

lemma removeFirst_append_fresh (s : String) (l : List CredentialRecord)
    (h : ∀ r ∈ l, r.secret ≠ s) :
    removeFirst s (l ++ [⟨s, false⟩]) = some (⟨s, false⟩, l) := by
  induction l with
  | nil => simp [removeFirst]
  | cons a t ih =>
    have ht := ih (fun r hr => h r (List.mem_cons_of_mem a hr))
    simp only [List.cons_append, removeFirst,
      if_neg (h a (List.mem_cons_self a t)), List.append_eq, ht]

lemma next_candidate_eq_none_of_all_exhausted (p : CredentialPool)
    (hall : ∀ r ∈ p.records, r.exhausted = true) :
    p.next_candidate = none := by
  have hfe : findEligible p.records p.current_index = none := by
    unfold findEligible
    rw [List.findSome?_eq_none_iff]
    intro k _
    cases hg : p.records[(p.current_index + k) % p.records.length]? with
    | none => simp [hg]
    | some r =>
      have hr := hall r (List.getElem?_mem hg)
      simp [hg, hr]
  unfold CredentialPool.next_candidate
  rw [hfe]

lemma findEligible_all_unexhausted (records : List CredentialRecord)
    (start : Nat) (hall : ∀ r ∈ records, r.exhausted = false)
    (hn : 0 < records.length) :
    findEligible records start = some (start % records.length) := by
  obtain ⟨m, hm⟩ : ∃ m, records.length = m + 1 := ⟨records.length - 1, by omega⟩
  have hj : start % records.length < records.length := Nat.mod_lt _ hn
  have hg : records[start % records.length]? =
      some records[start % records.length] :=
    List.getElem?_eq_getElem hj
  have hr : records[start % records.length].exhausted = false :=
    hall _ (List.getElem_mem hj)
  unfold findEligible
  conv_lhs => rw [hm, List.range_succ_eq_map, List.findSome?_cons]
  simp only [Nat.add_zero, ← hm, hg, hr]
  simp

lemma mod_add_one_mod (k n : Nat) : (k % n + 1) % n = (k + 1) % n := by
  conv_rhs => rw [Nat.add_mod]
  rw [Nat.add_mod (k % n) 1 n, Nat.mod_mod_of_dvd k dvd_rfl]

lemma next_candidate_all_unexhausted (records : List CredentialRecord)
    (j ec : Nat) (hall : ∀ r ∈ records, r.exhausted = false)
    (hn : 0 < records.length) :
    CredentialPool.next_candidate ⟨records, j, ec⟩ =
      some (j % records.length,
            ⟨records, (j % records.length + 1) % records.length, ec⟩) := by
  unfold CredentialPool.next_candidate
  rw [findEligible_all_unexhausted records j hall hn]

lemma iterateNext_all_unexhausted (records : List CredentialRecord) (ec : Nat)
    (hall : ∀ r ∈ records, r.exhausted = false) (hn : 0 < records.length) :
    ∀ k, iterateNext ⟨records, 0, ec⟩ k =
      ⟨records, k % records.length, ec⟩ := by
  intro k
  induction k with
  | zero => simp [iterateNext, Nat.zero_mod]
  | succ k ih =>
    unfold iterateNext
    rw [ih, next_candidate_all_unexhausted records _ ec hall hn]
    simp only [mod_add_one_mod]

lemma next_candidate_frame (p : CredentialPool) (i : Nat)
    (p' : CredentialPool) (h : p.next_candidate = some (i, p')) :
    p'.records = p.records ∧ p'.exhausted_count = p.exhausted_count ∧
      p'.current_index = (i + 1) % p.records.length := by
  unfold CredentialPool.next_candidate at h
  cases hf : findEligible p.records p.current_index with
  | none => rw [hf] at h; simp at h
  | some j =>
    rw [hf] at h
    simp only [Option.some.injEq, Prod.mk.injEq] at h
    obtain ⟨rfl, rfl⟩ := h
    exact ⟨rfl, rfl, rfl⟩

lemma countP_exhausted_map_mk (l : List String) :
    (l.map (fun s => (⟨s, false⟩ : CredentialRecord))).countP
      (·.exhausted) = 0 := by
  induction l with
  | nil => rfl
  | cons a t ih => simp [List.countP_cons, ih]

lemma poolInv_applyOp (p : CredentialPool) (op : PoolOp) (h : PoolInv p) :
    PoolInv (applyOp p op) := by
  cases op with
  | next =>
    simp only [applyOp]
    cases hn : p.next_candidate with
    | none => exact h
    | some pr =>
      obtain ⟨i, p'⟩ := pr
      obtain ⟨hr, he, _⟩ := next_candidate_frame p i p' hn
      unfold PoolInv
      rw [hr, he]
      exact h
  | mark i =>
    simp only [applyOp]
    unfold CredentialPool.mark_exhausted
    cases hg : p.records[i]? with
    | none => exact h
    | some r =>
      simp only []
      by_cases hr : r.exhausted = true
      · rw [if_pos hr]
        exact h
      · rw [if_neg hr]
        unfold PoolInv
        simp only []
        rw [countP_exhausted_set_true p.records i r hg
          ((Bool.not_eq_true r.exhausted) ▸ hr)]
        unfold PoolInv at h
        omega
  | add s =>
    simp only [applyOp]
    unfold CredentialPool.add PoolInv
    simp only [List.countP_append, List.countP_cons, List.countP_nil]
    unfold PoolInv at h
    simp [h]
  | remove s =>
    simp only [applyOp]
    unfold CredentialPool.remove
    cases hrf : removeFirst s p.records with
    | none => exact h
    | some pr =>
      obtain ⟨r, t⟩ := pr
      have hc := removeFirst_countP s p.records r t hrf
      unfold PoolInv at h ⊢
      simp only []
      by_cases hx : r.exhausted = true
      · simp only [hx, if_true] at hc ⊢
        omega
      · simp [hx] at hc ⊢
        omega
  | reset =>
    simp only [applyOp]
    unfold CredentialPool.reset PoolInv
    simp only [List.countP_map]
    have hcomp : ((fun x => x.exhausted) ∘
        fun r : CredentialRecord => { r with exhausted := false }) =
        fun _ : CredentialRecord => false := by
      funext r
      rfl
    rw [hcomp]
    simp

lemma poolInv_runOps (p : CredentialPool) (h : PoolInv p)
    (ops : List PoolOp) : PoolInv (runOps p ops) := by
  induction ops generalizing p with
  | nil => exact h
  | cons op rest ih =>
    unfold runOps
    rw [List.foldl_cons]
    exact ih (applyOp p op) (poolInv_applyOp p op h)

lemma poolInv_mkPool (secrets : List String) (p : CredentialPool)
    (hp : mkPool secrets = Except.ok p) : PoolInv p := by
  unfold mkPool at hp
  by_cases he : secrets.isEmpty
  · rw [if_pos he] at hp
    simp at hp
  · rw [if_neg he] at hp
    simp only [Except.ok.injEq] at hp
    subst hp
    unfold PoolInv
    simp only []
    rw [countP_exhausted_map_mk]

lemma mark_exhausted_of_none (p : CredentialPool) (i : Nat)
    (hg : p.records[i]? = none) : p.mark_exhausted i = p := by
  unfold CredentialPool.mark_exhausted
  rw [hg]

lemma mark_exhausted_of_true (p : CredentialPool) (i : Nat)
    (r : CredentialRecord) (hg : p.records[i]? = some r)
    (hr : r.exhausted = true) : p.mark_exhausted i = p := by
  unfold CredentialPool.mark_exhausted
  rw [hg]
  simp [hr]

lemma mark_exhausted_of_false (p : CredentialPool) (i : Nat)
    (r : CredentialRecord) (hg : p.records[i]? = some r)
    (hr : r.exhausted = false) :
    p.mark_exhausted i =
      { p with records := p.records.set i ⟨r.secret, true⟩
               exhausted_count := p.exhausted_count + 1 } := by
  unfold CredentialPool.mark_exhausted
  rw [hg]
  simp [hr]

/-! ## Claim theorems -/

/-- C3: `mark_exhausted` is idempotent: marking the same record twice equals
marking it once; a false-to-true transition sets the flag and increments
`exhausted_count` by exactly 1 (not 2); marking an already-exhausted record
changes nothing, so the count is incremented exactly once per false-to-true
transition. -/
theorem C3_mark_exhausted_idempotent (p : CredentialPool) (i : Nat) :
    (p.mark_exhausted i).mark_exhausted i = p.mark_exhausted i ∧
    (∀ r, p.records[i]? = some r → r.exhausted = false →
      (p.mark_exhausted i).records[i]? = some ⟨r.secret, true⟩ ∧
      (p.mark_exhausted i).exhausted_count = p.exhausted_count + 1) ∧
    (∀ r, p.records[i]? = some r → r.exhausted = true →
      p.mark_exhausted i = p) := by
  have hset : ∀ r, p.records[i]? = some r → r.exhausted = false →
      (p.mark_exhausted i).records[i]? = some ⟨r.secret, true⟩ := by
    intro r hg hr
    rw [mark_exhausted_of_false p i r hg hr]
    simp only []
    exact List.getElem?_set_self (List.getElem?_eq_some_iff.mp hg).1
  refine ⟨?_, ?_, fun r hg hr => mark_exhausted_of_true p i r hg hr⟩
  · cases hg : p.records[i]? with
    | none =>
      rw [mark_exhausted_of_none p i hg, mark_exhausted_of_none p i hg]
    | some r =>
      by_cases hr : r.exhausted = true
      · rw [mark_exhausted_of_true p i r hg hr,
          mark_exhausted_of_true p i r hg hr]
      · have hr' : r.exhausted = false := by
          revert hr
          cases r.exhausted <;> simp
        exact mark_exhausted_of_true (p.mark_exhausted i) i ⟨r.secret, true⟩
          (hset r hg hr') rfl
  · intro r hg hr
    refine ⟨hset r hg hr, ?_⟩
    rw [mark_exhausted_of_false p i r hg hr]

/-- Witness for C3 at a concrete pool: marking the single unexhausted record
increments the count from 0 to 1. -/
theorem C3_witness :
    (CredentialPool.mark_exhausted ⟨[⟨"key1", false⟩], 0, 0⟩ 0).exhausted_count
      = 0 + 1 :=
  ((C3_mark_exhausted_idempotent ⟨[⟨"key1", false⟩], 0, 0⟩ 0).2.1
    ⟨"key1", false⟩ rfl rfl).2

/-- C4: every pool state reachable by `next_candidate`, `mark_exhausted`,
`add`, `remove` and `reset` from a pool built by `mkPool` keeps
`exhausted_count` equal to the number of exhausted records, bounded by the
record-sequence length, and `counts()` returns
`(total, total - exhausted_count)`. -/
theorem C4_exhausted_count_invariant (secrets : List String)
    (p : CredentialPool) (hp : mkPool secrets = Except.ok p)
    (ops : List PoolOp) :
    PoolInv (runOps p ops) ∧
    (runOps p ops).exhausted_count ≤ (runOps p ops).records.length ∧
    (runOps p ops).counts =
      ((runOps p ops).records.length,
        (runOps p ops).records.length - (runOps p ops).exhausted_count) := by
  have h := poolInv_runOps p (poolInv_mkPool secrets p hp) ops
  refine ⟨h, ?_, rfl⟩
  unfold PoolInv at h
  rw [h]
  exact List.countP_le_length _

/-- Witness for C4 at a concrete pool and operation sequence. -/
theorem C4_witness :
    PoolInv (runOps ⟨[⟨"key1", false⟩, ⟨"key2", false⟩], 0, 0⟩
      [PoolOp.mark 0, PoolOp.next, PoolOp.add "key3",
       PoolOp.remove "key1", PoolOp.reset]) :=
  (C4_exhausted_count_invariant ["key1", "key2"]
    ⟨[⟨"key1", false⟩, ⟨"key2", false⟩], 0, 0⟩ rfl
    [PoolOp.mark 0, PoolOp.next, PoolOp.add "key3",
     PoolOp.remove "key1", PoolOp.reset]).1

/-- C5: with every record exhausted, `next_candidate()` returns the
exhaustion signal; after `reset()` every flag is false, `exhausted_count` is
0, and `next_candidate()` returns a valid candidate again. -/
theorem C5_exhaust_and_reset (p : CredentialPool) :
    ((∀ r ∈ p.records, r.exhausted = true) → p.next_candidate = none) ∧
    (0 < p.records.length →
      (∀ r ∈ p.reset.records, r.exhausted = false) ∧
      p.reset.exhausted_count = 0 ∧
      (p.reset.next_candidate).isSome = true) := by
  constructor
  · exact next_candidate_eq_none_of_all_exhausted p
  · intro hn
    have hall : ∀ r ∈ p.reset.records, r.exhausted = false := by
      intro r hr
      unfold CredentialPool.reset at hr
      simp only [List.mem_map] at hr
      obtain ⟨x, _, rfl⟩ := hr
      rfl
    refine ⟨hall, rfl, ?_⟩
    have hlen : 0 < p.reset.records.length := by
      unfold CredentialPool.reset
      simpa using hn
    unfold CredentialPool.next_candidate
    rw [findEligible_all_unexhausted _ _ hall hlen]
    rfl

/-- Witness for C5 at a concrete fully-exhausted single-record pool. -/
theorem C5_witness :
    CredentialPool.next_candidate ⟨[⟨"key1", true⟩], 0, 1⟩ = none ∧
    (CredentialPool.reset ⟨[⟨"key1", true⟩], 0, 1⟩).exhausted_count = 0 :=
  ⟨(C5_exhaust_and_reset ⟨[⟨"key1", true⟩], 0, 1⟩).1 (by decide),
   ((C5_exhaust_and_reset ⟨[⟨"key1", true⟩], 0, 1⟩).2 (by decide)).2.1⟩

/-- C6: `mask()` of a secret longer than 12 characters is exactly its first 6
characters, an ellipsis, and its last 6 characters; `mask()` of a secret of
at most 12 characters is the fixed placeholder `***`; in particular the
24-plus-character test key masks to `sk-or-...abcdef` and the 5-character
key masks to `***`. -/
theorem C6_masking :
    (∀ r : CredentialRecord, 12 < r.secret.length →
      r.mask = r.secret.take 6 ++ "..." ++ r.secret.takeRight 6) ∧
    (∀ r : CredentialRecord, r.secret.length ≤ 12 → r.mask = "***") ∧
    CredentialRecord.mask ⟨"sk-or-v1-1234567890abcdef", false⟩ =
      "sk-or-...abcdef" ∧
    CredentialRecord.mask ⟨"short", false⟩ = "***" := by
  refine ⟨?_, ?_, by decide, by decide⟩
  · intro r h
    unfold CredentialRecord.mask
    rw [if_pos h]
  · intro r h
    unfold CredentialRecord.mask
    rw [if_neg (by omega)]

/-- Witness for C6 at the concrete long test key. -/
theorem C6_witness :
    CredentialRecord.mask ⟨"sk-or-v1-1234567890abcdef", false⟩ =
      "sk-or-v1-1234567890abcdef".take 6 ++ "..." ++
        "sk-or-v1-1234567890abcdef".takeRight 6 :=
  C6_masking.1 ⟨"sk-or-v1-1234567890abcdef", false⟩ (by decide)

/-- C7: constructing a pool from an empty credential list fails fast with
the `ValueError` message `At least one API key must be provided`; with one or
more credentials it succeeds and `counts()` reports total and available both
equal to the number of supplied credentials. -/
theorem C7_construction_validation :
    mkPool [] = Except.error "At least one API key must be provided" ∧
    (∀ secrets : List String, secrets ≠ [] →
      ∃ p, mkPool secrets = Except.ok p ∧
        p.counts = (secrets.length, secrets.length)) := by
  constructor
  · rfl
  · intro secrets hne
    refine ⟨{ records := secrets.map (fun s => ⟨s, false⟩)
              current_index := 0
              exhausted_count := 0 }, ?_, ?_⟩
    · unfold mkPool
      rw [if_neg (by simpa [List.isEmpty_iff] using hne)]
    · unfold CredentialPool.counts
      simp

/-- Witness for C7 at a concrete one-credential list. -/
theorem C7_witness :
    ∃ p, mkPool ["key1"] = Except.ok p ∧
      p.counts = (["key1"].length, ["key1"].length) :=
  C7_construction_validation.2 ["key1"] (by decide)

/-- C8: `remove(secret)` returns true exactly when a matching record was
removed: removing a secret present in no record returns false and leaves the
pool (every record, `exhausted_count`, and hence total and available counts)
unchanged, and `add(secret)` followed by `remove(secret)` of the same fresh
secret returns true and restores the original records and counts. -/
theorem C8_remove_semantics (p : CredentialPool) (s : String)
    (hfresh : ∀ r ∈ p.records, r.secret ≠ s) :
    p.remove s = (false, p) ∧
    ((p.add s).remove s).1 = true ∧
    ((p.add s).remove s).2.records = p.records ∧
    ((p.add s).remove s).2.exhausted_count = p.exhausted_count := by
  have h1 : p.remove s = (false, p) := by
    unfold CredentialPool.remove
    rw [removeFirst_eq_none s p.records hfresh]
  have h2 : removeFirst s (p.records ++ [⟨s, false⟩]) =
      some (⟨s, false⟩, p.records) :=
    removeFirst_append_fresh s p.records hfresh
  have h3 : (p.add s).remove s =
      (true, { records := p.records
               exhausted_count := p.exhausted_count
               current_index :=
                 if p.records.length ≤ p.current_index then 0
                 else p.current_index }) := by
    unfold CredentialPool.add CredentialPool.remove
    simp only []
    rw [h2]
    simp
  exact ⟨h1, by rw [h3], by rw [h3], by rw [h3]⟩

/-- Witness for C8 at a concrete pool and fresh secret. -/
theorem C8_witness :
    CredentialPool.remove ⟨[⟨"key1", false⟩], 0, 0⟩ "new" =
      (false, ⟨[⟨"key1", false⟩], 0, 0⟩) ∧
    ((CredentialPool.add ⟨[⟨"key1", false⟩], 0, 0⟩ "new").remove "new").1
      = true ∧
    ((CredentialPool.add ⟨[⟨"key1", false⟩], 0, 0⟩ "new").remove
      "new").2.records = [⟨"key1", false⟩] ∧
    ((CredentialPool.add ⟨[⟨"key1", false⟩], 0, 0⟩ "new").remove
      "new").2.exhausted_count = 0 :=
  C8_remove_semantics ⟨[⟨"key1", false⟩], 0, 0⟩ "new" (by decide)

/-- C10: `openrouter_name` returns the model name unchanged when it contains
a `/` and prefixes `openai/` otherwise; every entry of the predefined
`MODELS` table contains a `/`, so `openrouter_name` is the identity on all
predefined models. -/
theorem C10_openrouter_name_property :
    (∀ m : ModelInfo, m.name.data.contains '/' = true →
      m.openrouter_name = m.name) ∧
    (∀ m : ModelInfo, m.name.data.contains '/' = false →
      m.openrouter_name = "openai/" ++ m.name) ∧
    (∀ e ∈ MODELS, e.2.name.data.contains '/' = true ∧
      e.2.openrouter_name = e.2.name) := by
  refine ⟨?_, ?_, by decide⟩
  · intro m h
    unfold ModelInfo.openrouter_name
    rw [if_pos h]
  · intro m h
    unfold ModelInfo.openrouter_name
    rw [if_neg (by rw [h]; exact Bool.false_ne_true)]

/-- Witness for C10 at a concrete model whose name contains a slash. -/
theorem C10_witness :
    ModelInfo.openrouter_name
        ⟨"openai/gpt-4o-mini", 128000, some 16384⟩ =
      "openai/gpt-4o-mini" :=
  C10_openrouter_name_property.1 ⟨"openai/gpt-4o-mini", 128000, some 16384⟩
    (by decide)

/-- C1: on a pool whose every credential is exhausted (`exhausted_count`
equal to the total under the consistency invariant), `chat_completion`
terminates with the `AllKeysExhausted` error immediately, with the pool
untouched and zero transport calls made, for every transport and retry
budget. -/
theorem C1_exhausted_pool_no_transport (p : CredentialPool)
    (hInv : PoolInv p) (hfull : p.exhausted_count = p.records.length)
    (transport : Nat → String → TransportOutcome) (budget : Nat) :
    chat_completion transport budget p =
      (ExecResult.allKeysExhausted, p, 0) := by
  have hcount : p.records.countP (·.exhausted) = p.records.length := by
    unfold PoolInv at hInv
    omega
  have hall : ∀ r ∈ p.records, r.exhausted = true := by
    intro r hr
    exact List.countP_eq_length.mp hcount r hr
  have hnc : p.next_candidate = none :=
    next_candidate_eq_none_of_all_exhausted p hall
  unfold chat_completion executeAux
  simp [hnc]

/-- Witness for C1 at a concrete two-credential fully exhausted pool. -/
theorem C1_witness :
    chat_completion (fun _ _ => TransportOutcome.success "ok") 2
        ⟨[⟨"key1", true⟩, ⟨"key2", true⟩], 0, 2⟩ =
      (ExecResult.allKeysExhausted,
        ⟨[⟨"key1", true⟩, ⟨"key2", true⟩], 0, 2⟩, 0) :=
  C1_exhausted_pool_no_transport ⟨[⟨"key1", true⟩, ⟨"key2", true⟩], 0, 2⟩
    (by decide) (by decide) (fun _ _ => TransportOutcome.success "ok") 2

/-- C2: starting from index 0 with every record eligible, successive
`next_candidate()` calls return the records in insertion order, the call
after the `N`-th wrapping back to the first (the `k`-th call returns record
`k mod N`); the iteration never changes the record sequence, and
`next_candidate` itself never marks a record exhausted nor changes
`exhausted_count`, only advancing `current_index` past the returned
record. -/
theorem C2_rotation_order (records : List CredentialRecord) (ec : Nat)
    (hall : ∀ r ∈ records, r.exhausted = false) (hn : 0 < records.length) :
    (∀ k, nthCandidate ⟨records, 0, ec⟩ k =
      records[k % records.length]?) ∧
    (∀ k, (iterateNext ⟨records, 0, ec⟩ k).records = records) ∧
    (∀ q i q', CredentialPool.next_candidate q = some (i, q') →
      q'.records = q.records ∧ q'.exhausted_count = q.exhausted_count ∧
      q'.current_index = (i + 1) % q.records.length) := by
  refine ⟨?_, ?_, fun q i q' h => next_candidate_frame q i q' h⟩
  · intro k
    unfold nthCandidate
    rw [iterateNext_all_unexhausted records ec hall hn k,
      next_candidate_all_unexhausted records _ ec hall hn]
    simp only []
    rw [Nat.mod_mod_of_dvd _ dvd_rfl]
  · intro k
    rw [iterateNext_all_unexhausted records ec hall hn k]

/-- Witness for C2: on a three-record pool the fourth call wraps back to the
first record. -/
theorem C2_witness :
    nthCandidate ⟨[⟨"a", false⟩, ⟨"b", false⟩, ⟨"c", false⟩], 0, 0⟩ 3 =
      some ⟨"a", false⟩ := by
  have h := (C2_rotation_order [⟨"a", false⟩, ⟨"b", false⟩, ⟨"c", false⟩] 0
    (by decide) (by decide)).1 3
  simpa using h

lemma next_candidate_single_unexhausted (s : String) :
    CredentialPool.next_candidate ⟨[⟨s, false⟩], 0, 0⟩ =
      some (0, ⟨[⟨s, false⟩], 0, 0⟩) := by
  have h := next_candidate_all_unexhausted [⟨s, false⟩] 0 0
    (by intro r hr; simp at hr; rw [hr]) (by simp)
  simpa using h

lemma executeAux_timeout_single (s : String) (hs : s ≠ "") :
    ∀ budget calls pinned, pinned = none ∨ pinned = some 0 →
      executeAux (fun _ _ => TransportOutcome.timeout) budget pinned
          ⟨[⟨s, false⟩], 0, 0⟩ calls =
        (ExecResult.underlyingError, ⟨[⟨s, false⟩], 0, 0⟩,
          calls + budget + 1) := by
  intro budget
  induction budget with
  | zero =>
    intro calls pinned hp
    rcases hp with rfl | rfl
    · unfold executeAux
      rw [next_candidate_single_unexhausted s]
      simp [hs]
    · unfold executeAux
      simp [hs]
  | succ b ih =>
    intro calls pinned hp
    rcases hp with rfl | rfl
    · unfold executeAux
      rw [next_candidate_single_unexhausted s]
      simp only [List.getElem?_cons_zero]
      rw [if_neg hs]
      rw [ih (calls + 1) (some 0) (Or.inr rfl)]
      simp only [Prod.mk.injEq, true_and]
      omega
    · unfold executeAux
      simp only [List.getElem?_cons_zero]
      rw [if_neg hs]
      rw [ih (calls + 1) (some 0) (Or.inr rfl)]
      simp only [Prod.mk.injEq, true_and]
      omega

lemma executeAux_timeout_preserves_records (budget : Nat) :
    ∀ pinned pool calls,
      ((executeAux (fun _ _ => TransportOutcome.timeout) budget pinned
        pool calls).2.1).records = pool.records := by
  induction budget with
  | zero =>
    intro pinned pool calls
    cases pinned with
    | some i =>
      unfold executeAux
      simp only []
      cases hg : pool.records[i]? with
      | none => rfl
      | some r =>
        simp only []
        by_cases hr : r.secret = ""
        · rw [if_pos hr]
        · rw [if_neg hr]
    | none =>
      unfold executeAux
      simp only []
      cases hn : pool.next_candidate with
      | none => rfl
      | some pr =>
        obtain ⟨i, p1⟩ := pr
        have hrec := (next_candidate_frame pool i p1 hn).1
        simp only []
        cases hg : p1.records[i]? with
        | none => exact hrec
        | some r =>
          simp only []
          by_cases hr : r.secret = ""
          · rw [if_pos hr]; exact hrec
          · rw [if_neg hr]; exact hrec
  | succ b ih =>
    intro pinned pool calls
    cases pinned with
    | some i =>
      unfold executeAux
      simp only []
      cases hg : pool.records[i]? with
      | none => rfl
      | some r =>
        simp only []
        by_cases hr : r.secret = ""
        · rw [if_pos hr]
        · rw [if_neg hr]
          exact ih (some i) pool (calls + 1)
    | none =>
      unfold executeAux
      simp only []
      cases hn : pool.next_candidate with
      | none => rfl
      | some pr =>
        obtain ⟨i, p1⟩ := pr
        have hrec := (next_candidate_frame pool i p1 hn).1
        simp only []
        cases hg : p1.records[i]? with
        | none => exact hrec
        | some r =>
          simp only []
          by_cases hr : r.secret = ""
          · rw [if_pos hr]; exact hrec
          · rw [if_neg hr]
            rw [ih (some i) p1 (calls + 1)]
            exact hrec

/-- C9: with a single nonempty credential, retry budget 2 and a transport
that always times out, the executor makes 1 + 2 transport calls (the retries
all with the same credential), terminates with `UnderlyingTransportError`,
and leaves the pool — in particular the credential's `exhausted` flag —
untouched; moreover a transport that always times out never changes the
record sequence of any pool, for any budget. -/
theorem C9_timeout_budget_spent (s : String) (hs : s ≠ "") :
    chat_completion (fun _ _ => TransportOutcome.timeout) 2
        ⟨[⟨s, false⟩], 0, 0⟩ =
      (ExecResult.underlyingError, ⟨[⟨s, false⟩], 0, 0⟩, 3) ∧
    (∀ budget pool,
      ((chat_completion (fun _ _ => TransportOutcome.timeout) budget
        pool).2.1).records = pool.records) := by
  constructor
  · exact executeAux_timeout_single s hs 2 0 none (Or.inl rfl)
  · intro budget pool
    exact executeAux_timeout_preserves_records budget none pool 0

/-- Witness for C9 at the concrete secret `key1`. -/
theorem C9_witness :
    chat_completion (fun _ _ => TransportOutcome.timeout) 2
        ⟨[⟨"key1", false⟩], 0, 0⟩ =
      (ExecResult.underlyingError, ⟨[⟨"key1", false⟩], 0, 0⟩, 3) :=
  (C9_timeout_budget_spent "key1" (by decide)).1
